import Mathlib

/-!
# Verification of the context-budgeted retrieval-and-synthesis pipeline

Shallow embedding of the core pipeline of notebook `04-Complex-Docs.ipynb`:
page segmentation, token accounting, result fusion, synthesis-strategy
selection, and the ingestion upload loop, together with proofs of the
spec's testable properties.

Functions that live in `common/utils.py` (`parse_pdf`, `get_search_results`,
`num_tokens_from_docs`, `text_to_base64`) are modelled from the spec, since
only their callers appear in the notebooks; each such definition says so in
its doc comment. Everything else is translated from the notebook cells.
-/

namespace Accel

/-! ## Token accounting and documents -/

/-- A retrieved document handed to the synthesis chain
(`langchain.docstore.document.Document` as built in the notebook:
`Document(page_content=value["chunk"], metadata=...)`). -/
structure Document where
  page_content : String
  source : String
  deriving DecidableEq, Repr

/-- Modelled from the spec: `num_tokens_from_docs` lives in `common/utils.py`
(not under `src/`). Per §4.2 it is the sum over documents, each counted
independently by a deterministic, model-family-keyed tokenizer; the tokenizer
itself is abstracted as a pure function `tok` on text. -/
def num_tokens_from_docs (tok : String → ℕ) (docs : List Document) : ℕ :=
  (docs.map (fun d => tok d.page_content)).sum

/-! ## Synthesis Strategy Selector

From `src/04-Complex-Docs.ipynb`:
```
COMPLETION_TOKENS = 1000
requested_tokens = prompt_tokens + context_tokens + COMPLETION_TOKENS
chain_type = "map_reduce" if requested_tokens > 0.9 * tokens_limit else "stuff"
```
Python compares the integer `requested_tokens` against the float
`0.9 * tokens_limit`; the embedding uses the exact rational `9/10`, i.e. the
integer inequality `10 * requested > 9 * limit`. -/

def COMPLETION_TOKENS : ℕ := 1000

/-- `requested_tokens = prompt_tokens + context_tokens + COMPLETION_TOKENS`. -/
def requested_tokens (prompt_tokens context_tokens : ℕ) : ℕ :=
  prompt_tokens + context_tokens + COMPLETION_TOKENS

/-- The notebook's chain-type decision:
`"map_reduce" if requested_tokens > 0.9 * tokens_limit else "stuff"`. -/
def chain_type (prompt_tokens context_tokens tokens_limit : ℕ) : String :=
  if 10 * requested_tokens prompt_tokens context_tokens > 9 * tokens_limit then
    "map_reduce"
  else
    "stuff"

/-! ## Answer Assembler

The notebook's assembler cells: when `len(top_docs) > 0` it computes the
chain type and runs the chain (`stuff`: one completion call; `map_reduce`:
one call per document plus a reduce call, per spec §4.4); when
`len(top_docs) == 0` it emits the fixed `NO RESULTS FROM AZURE SEARCH`
outcome, `chain_type` is never assigned and no chain is built, so the
completion service is never invoked. -/

/-- Outcome of the assembler cells. -/
inductive SynthesisOutcome where
  | noResults (message : String)
  | answered (ct : String) (llmCalls : ℕ)
  deriving DecidableEq, Repr

/-- Number of completion-service calls an outcome incurred. -/
def llmCallCount : SynthesisOutcome → ℕ
  | .noResults _ => 0
  | .answered _ n => n

/-- The assembler: guards on `len(top_docs) > 0` exactly as the notebook
cell does; the per-strategy call counts (1 for stuff, N+1 for map-reduce)
are modelled from the spec §4.4, the chain execution itself being external
library code. -/
def assemble (tok : String → ℕ) (top_docs : List Document)
    (prompt_tokens tokens_limit : ℕ) : SynthesisOutcome :=
  if top_docs.length > 0 then
    let context_tokens := num_tokens_from_docs tok top_docs
    let ct := chain_type prompt_tokens context_tokens tokens_limit
    .answered ct (if ct = "stuff" then 1 else top_docs.length + 1)
  else
    .noResults "NO RESULTS FROM AZURE SEARCH"

/-! ## Result Fusion Engine

Modelled from the spec: `get_search_results` lives in `common/utils.py`
(not under `src/`); the notebook only calls it. Spec §4.3: merge the
per-index hit lists, drop candidates whose ordering score is below the
reranker threshold, deduplicate candidates with identical content or
identical source location keeping the higher-scored one, and return the
survivors in descending ordering-score order truncated to `k`. -/

/-- A search hit after its per-backend score has been unified into one
ordering score (spec `FusedCandidate`). -/
structure SearchHit where
  content : String
  location : String
  score : ℚ
  deriving DecidableEq, Repr

/-- Two hits collide for deduplication when their content or their source
location is identical (spec §4.3 step 4). -/
def isDupOf (a h : SearchHit) : Bool :=
  a.content == h.content || a.location == h.location

/-- Insert one hit into the accumulated deduplicated list: if a colliding
hit is present and the new hit scores higher, the new hit replaces every
colliding entry; a lower-or-equal-scoring new hit is discarded; otherwise
the hit is added. -/
def addHit (acc : List SearchHit) (h : SearchHit) : List SearchHit :=
  match acc.find? (fun a => isDupOf a h) with
  | some a =>
      if a.score < h.score then h :: acc.filter (fun a => ! isDupOf a h) else acc
  | none => h :: acc

/-- Deduplicate a hit list (spec §4.3 step 4). -/
def dedupHits (hits : List SearchHit) : List SearchHit :=
  hits.foldl addHit []

/-- Descending ordering-score order. -/
def byScoreDesc (a b : SearchHit) : Prop :=
  b.score ≤ a.score

instance : DecidableRel byScoreDesc :=
  fun a b => inferInstanceAs (Decidable (b.score ≤ a.score))

instance : IsTotal SearchHit byScoreDesc :=
  ⟨fun a b => le_total b.score a.score⟩

instance : IsTrans SearchHit byScoreDesc :=
  ⟨fun _ _ _ hab hbc => le_trans hbc hab⟩

/-- Deduplication invariant: two hits agree on neither content nor location. -/
def distinctHit (a b : SearchHit) : Prop :=
  a.content ≠ b.content ∧ a.location ≠ b.location

/-- Modelled from the spec: the fusion contract
`fuse(query, indexNames, k, ..., rerankerThreshold)`, with the per-index
retrieval calls abstracted as the already-fetched hit lists `hitLists`
(one list per named index, network transport being external). -/
def get_search_results (hitLists : List (List SearchHit)) (k : ℕ)
    (reranker_threshold : ℚ) : List SearchHit :=
  let merged := hitLists.flatten
  let kept := merged.filter (fun h => decide (reranker_threshold ≤ h.score))
  let deduped := dedupHits kept
  (deduped.insertionSort byScoreDesc).take k

/-! ## Page Segmenter and ingestion upload loop -/

/-- Helper for `parse_pdf`: emit one unit per page, threading the 0-based
page index and the running character offset. -/
def parsePages (idx offset : ℕ) : List String → List (ℕ × ℕ × String)
  | [] => []
  | t :: ts => (idx, offset, t) :: parsePages (idx + 1) (offset + t.length) ts

/-- Modelled from the spec: `parse_pdf` lives in `common/utils.py` (not under
`src/`). Per spec §2/§4.1 it converts a document — here the list of its
physical pages' extracted texts — into an ordered sequence of one
`(page_index, offset, text)` unit per physical page, retaining empty-text
pages. The notebook caller forms the 1-based page number as `page[0] + 1`,
so the first component is the 0-based page position. -/
def parse_pdf (pages : List String) : List (ℕ × ℕ × String) :=
  parsePages 0 0 pages

/-- From the notebook upload loop: `page_num = page[0] + 1`. -/
def page_num (page : ℕ × ℕ × String) : ℕ :=
  page.1 + 1

/-- The base64 alphabet (RFC 4648). -/
def base64Chars : List Char :=
  "ABCDEFGHIJKLMNOPQRSTUVWXYZabcdefghijklmnopqrstuvwxyz0123456789+/".toList

/-- The base64 digit for a 6-bit value. -/
def b64Char (n : ℕ) : Char :=
  base64Chars.getD n 'A'

/-- Base64-encode a byte list, three bytes to four digits, `=`-padded. -/
def b64Encode : List ℕ → List Char
  | b1 :: b2 :: b3 :: rest =>
      let n := b1 * 65536 + b2 * 256 + b3
      b64Char (n / 262144 % 64) :: b64Char (n / 4096 % 64) ::
        b64Char (n / 64 % 64) :: b64Char (n % 64) :: b64Encode rest
  | [b1, b2] =>
      let n := b1 * 65536 + b2 * 256
      [b64Char (n / 262144 % 64), b64Char (n / 4096 % 64), b64Char (n / 64 % 64), '=']
  | [b1] =>
      let n := b1 * 65536
      [b64Char (n / 262144 % 64), b64Char (n / 4096 % 64), '=', '=']
  | [] => []

/-- Modelled from the spec: `text_to_base64` lives in `common/utils.py`
(not under `src/`); it base64-encodes the text's UTF-8 bytes to build a
search-document key. -/
def text_to_base64 (s : String) : String :=
  String.mk (b64Encode (s.toUTF8.toList.map (fun b => b.toNat)))

/-- The argument handed to the embedder in the upload loop:
`content if content != "" else "-------"`. -/
def embed_input (content : String) : String :=
  if content ≠ "" then content else "-------"

/-- One document of the `upload_payload` built per page in the notebook
upload loop (the embedding vector abstracted as a list of rationals). -/
structure UploadDoc where
  id : String
  title : String
  chunk : String
  chunkVector : List ℚ
  name : String
  location : String
  page_num : ℕ
  deriving DecidableEq, Repr

/-- The notebook's per-page payload document:
`id = text_to_base64(bookname + str(page_num))`,
`title = f"<bookname>_page_<page_num>"`, `chunk = content`,
`chunkVector = embedder.embed_query(content if content != "" else "-------")`,
`location = BASE_CONTAINER_URL + bookname`. -/
def upload_doc (embed : String → List ℚ) (base_container_url bookname : String)
    (page : ℕ × ℕ × String) : UploadDoc :=
  let pn := page_num page
  let content := page.2.2
  { id := text_to_base64 (bookname ++ toString pn)
    title := bookname ++ "_page_" ++ toString pn
    chunk := content
    chunkVector := embed (embed_input content)
    name := bookname
    location := base_container_url ++ bookname
    page_num := pn }

/-- The payload documents built for one book's page map, in page order. -/
def upload_docs (embed : String → List ℚ) (base_container_url bookname : String)
    (bookmap : List (ℕ × ℕ × String)) : List UploadDoc :=
  bookmap.map (upload_doc embed base_container_url bookname)

/-- Inner upload loop over one book's pages. `attempt` abstracts the
fallible body of the `try` block (payload build, embedding call, HTTP post):
it returns either the HTTP status code or a raised exception's message.
The notebook catches the exception (`except ... continue`) and merely
prints a non-200 status, so every page yields one recorded outcome and the
loop always proceeds to the next page. -/
def process_pages (attempt : String → ℕ → String → Except String ℕ)
    (bookname : String) : List (ℕ × ℕ × String) → List (ℕ × Except String ℕ)
  | [] => []
  | page :: rest =>
      (page_num page, attempt bookname (page_num page) page.2.2) ::
        process_pages attempt bookname rest

/-- Outer upload loop over all books (`for bookname, bookmap in
book_pages_map.items()`): one recorded outcome per page per book. -/
def upload_loop (attempt : String → ℕ → String → Except String ℕ) :
    List (String × List (ℕ × ℕ × String)) → List (String × ℕ × Except String ℕ)
  | [] => []
  | (bookname, bookmap) :: rest =>
      (process_pages attempt bookname bookmap).map (fun o => (bookname, o)) ++
        upload_loop attempt rest

/-! ## Helper lemmas: deduplication and segmentation -/

theorem mem_addHit {acc : List SearchHit} {h x : SearchHit} :
    x ∈ addHit acc h → x = h ∨ x ∈ acc := by
  intro hx
  unfold addHit at hx
  split at hx
  · split_ifs at hx with hs
    · rcases List.mem_cons.mp hx with h1 | h1
      · exact Or.inl h1
      · exact Or.inr (List.mem_of_mem_filter h1)
    · exact Or.inr hx
  · exact List.mem_cons.mp hx

theorem pairwise_addHit {acc : List SearchHit} {h : SearchHit}
    (hp : acc.Pairwise distinctHit) : (addHit acc h).Pairwise distinctHit := by
  unfold addHit
  split
  · split_ifs with hs
    · refine List.Pairwise.cons ?_ (hp.filter _)
      intro b hb
      have hcond := (List.mem_filter.mp hb).2
      simp only [isDupOf, Bool.not_eq_true', Bool.or_eq_false_iff,
        beq_eq_false_iff_ne, ne_eq] at hcond
      exact ⟨fun e => hcond.1 e.symm, fun e => hcond.2 e.symm⟩
    · exact hp
  · next hf =>
      refine List.Pairwise.cons ?_ hp
      intro a ha
      have hcond := List.find?_eq_none.mp hf a ha
      unfold isDupOf at hcond
      simp only [Bool.or_eq_true, beq_iff_eq, not_or] at hcond
      exact ⟨fun e => hcond.1 e.symm, fun e => hcond.2 e.symm⟩

theorem pairwise_dedup_foldl :
    ∀ (l acc : List SearchHit), acc.Pairwise distinctHit →
      (l.foldl addHit acc).Pairwise distinctHit
  | [], _, hp => hp
  | h :: t, acc, hp => by
      rw [List.foldl_cons]
      exact pairwise_dedup_foldl t (addHit acc h) (pairwise_addHit hp)

theorem mem_dedup_foldl :
    ∀ (l acc : List SearchHit) (x : SearchHit),
      x ∈ l.foldl addHit acc → x ∈ acc ∨ x ∈ l
  | [], _, _, hx => Or.inl hx
  | h :: t, acc, x, hx => by
      rw [List.foldl_cons] at hx
      rcases mem_dedup_foldl t (addHit acc h) x hx with h1 | h1
      · rcases mem_addHit h1 with h2 | h2
        · exact Or.inr (h2 ▸ List.mem_cons_self h t)
        · exact Or.inl h2
      · exact Or.inr (List.mem_cons_of_mem h h1)

theorem parsePages_length :
    ∀ (ts : List String) (i off : ℕ), (parsePages i off ts).length = ts.length
  | [], _, _ => rfl
  | t :: ts, i, off => by
      rw [parsePages, List.length_cons, List.length_cons,
        parsePages_length ts (i + 1) (off + t.length)]

theorem parsePages_map_page_num :
    ∀ (ts : List String) (i off : ℕ),
      (parsePages i off ts).map page_num = List.range' (i + 1) ts.length
  | [], _, _ => rfl
  | t :: ts, i, off => by
      rw [parsePages, List.map_cons,
        parsePages_map_page_num ts (i + 1) (off + t.length),
        List.length_cons, List.range'_succ]
      rfl

theorem parsePages_getElem? :
    ∀ (ts : List String) (i off n : ℕ) (t : String),
      ts[n]? = some t → ∃ o, (parsePages i off ts)[n]? = some (i + n, o, t)
  | [], _, _, n, t, h => by simp at h
  | t0 :: ts, i, off, 0, t, h => by
      simp only [List.getElem?_cons_zero, Option.some.injEq] at h
      subst h
      exact ⟨off, by simp [parsePages]⟩
  | t0 :: ts, i, off, n + 1, t, h => by
      simp only [List.getElem?_cons_succ] at h
      obtain ⟨o, ho⟩ := parsePages_getElem? ts (i + 1) (off + t0.length) n t h
      refine ⟨o, ?_⟩
      rw [parsePages, List.getElem?_cons_succ, ho]
      have : i + 1 + n = i + (n + 1) := by omega
      rw [this]

theorem process_pages_length :
    ∀ (attempt : String → ℕ → String → Except String ℕ) (bookname : String)
      (bookmap : List (ℕ × ℕ × String)),
      (process_pages attempt bookname bookmap).length = bookmap.length
  | _, _, [] => rfl
  | attempt, bookname, page :: rest => by
      rw [process_pages, List.length_cons, List.length_cons,
        process_pages_length attempt bookname rest]

theorem mem_process_pages :
    ∀ (attempt : String → ℕ → String → Except String ℕ) (bookname : String)
      (bookmap : List (ℕ × ℕ × String)) (page : ℕ × ℕ × String),
      page ∈ bookmap →
      (page_num page, attempt bookname (page_num page) page.2.2) ∈
        process_pages attempt bookname bookmap
  | _, _, [], _, hp => absurd hp (List.not_mem_nil _)
  | attempt, bookname, q :: rest, page, hp => by
      rw [process_pages]
      rcases List.mem_cons.mp hp with h1 | h1
      · subst h1
        exact List.mem_cons_self _ _
      · exact List.mem_cons_of_mem _ (mem_process_pages attempt bookname rest page h1)

theorem upload_loop_length :
    ∀ (attempt : String → ℕ → String → Except String ℕ)
      (books : List (String × List (ℕ × ℕ × String))),
      (upload_loop attempt books).length = (books.map (fun b => b.2.length)).sum
  | _, [] => rfl
  | attempt, (bookname, bookmap) :: rest => by
      show ((process_pages attempt bookname bookmap).map (fun o => (bookname, o)) ++
          upload_loop attempt rest).length = _
      rw [List.length_append, List.length_map, process_pages_length,
        upload_loop_length attempt rest, List.map_cons, List.sum_cons]

theorem mem_upload_loop :
    ∀ (attempt : String → ℕ → String → Except String ℕ)
      (books : List (String × List (ℕ × ℕ × String)))
      (bookname : String) (bookmap : List (ℕ × ℕ × String)),
      (bookname, bookmap) ∈ books →
      ∀ page ∈ bookmap,
        (bookname, page_num page, attempt bookname (page_num page) page.2.2) ∈
          upload_loop attempt books
  | _, [], _, _, hb, _, _ => absurd hb (List.not_mem_nil _)
  | attempt, (bn, bm) :: rest, bookname, bookmap, hb, page, hp => by
      show _ ∈ (process_pages attempt bn bm).map (fun o => (bn, o)) ++
          upload_loop attempt rest
      rcases List.mem_cons.mp hb with h1 | h1
      · injection h1 with e1 e2
        subst e1
        subst e2
        refine List.mem_append_left _ ?_
        exact List.mem_map.mpr
          ⟨(page_num page, attempt bookname (page_num page) page.2.2),
            mem_process_pages attempt bookname bookmap page hp, rfl⟩
      · exact List.mem_append_right _
          (mem_upload_loop attempt rest bookname bookmap h1 page hp)

/-! ## Claim theorems -/

/-- C1: for every non-empty fused candidate set, with
`requested = promptOverheadTokens + sum(tokens(candidate.content)) + reservedCompletionTokens`,
the selector picks MapReduce exactly when `requested > 0.9 * contextWindow`
and Stuff otherwise; in particular with a 16384-token window, 1669
prompt-overhead tokens and 1000 reserved completion tokens it picks Stuff at
a 3529-token candidate total (requested 6198 ≤ 14745.6) and MapReduce at a
14000-token candidate total (requested 16669 > 14745.6). -/
theorem chain_type_decision_rule :
    (∀ (tok : String → ℕ) (docs : List Document) (p L : ℕ), docs ≠ [] →
      ((chain_type p (num_tokens_from_docs tok docs) L = "map_reduce" ↔
          ((p + num_tokens_from_docs tok docs + COMPLETION_TOKENS : ℚ) >
            9 / 10 * L)) ∧
       (chain_type p (num_tokens_from_docs tok docs) L = "stuff" ↔
          ¬ ((p + num_tokens_from_docs tok docs + COMPLETION_TOKENS : ℚ) >
            9 / 10 * L)))) ∧
    chain_type 1669 3529 16384 = "stuff" ∧
    chain_type 1669 14000 16384 = "map_reduce" := by
  refine ⟨fun tok docs p L _ => ?_, by decide, by decide⟩
  have key : 10 * requested_tokens p (num_tokens_from_docs tok docs) > 9 * L ↔
      ((p + num_tokens_from_docs tok docs + COMPLETION_TOKENS : ℚ) > 9 / 10 * L) := by
    rw [requested_tokens]
    qify
    constructor <;> intro h <;> linarith
  refine ⟨?_, ?_⟩ <;> rw [chain_type] <;> split_ifs with hc
  · exact ⟨fun _ => key.mp hc, fun _ => rfl⟩
  · exact ⟨fun h => absurd h (by decide), fun hq => absurd (key.mpr hq) hc⟩
  · exact ⟨fun h => absurd h (by decide), fun hq => absurd (key.mp hc) hq⟩
  · exact ⟨fun _ hq => hc (key.mpr hq), fun _ => rfl⟩

/-- Witness for C1: the decision rule applied to a concrete non-empty
candidate set totalling 14000 tokens selects map-reduce. -/
theorem chain_type_decision_rule_witness :
    chain_type 1669 (num_tokens_from_docs (fun _ => 14000) [Document.mk "d" "s"]) 16384
      = "map_reduce" := by
  have h := (chain_type_decision_rule.1 (fun _ => 14000) [Document.mk "d" "s"]
    1669 16384 (by decide)).1
  refine h.mpr ?_
  show (9 : ℚ) / 10 * 16384 <
    1669 + (num_tokens_from_docs (fun _ => 14000) [Document.mk "d" "s"] : ℚ) + COMPLETION_TOKENS
  have he : num_tokens_from_docs (fun _ => 14000) [Document.mk "d" "s"] = 14000 := rfl
  rw [he]
  norm_num [COMPLETION_TOKENS]

/-- C2: with zero fused candidates the assembler returns the fixed
`NO RESULTS FROM AZURE SEARCH` outcome and the completion service is
called zero times. -/
theorem assemble_empty_no_llm_call :
    ∀ (tok : String → ℕ) (prompt_tokens tokens_limit : ℕ),
      assemble tok [] prompt_tokens tokens_limit =
        .noResults "NO RESULTS FROM AZURE SEARCH" ∧
      llmCallCount (assemble tok [] prompt_tokens tokens_limit) = 0 := by
  intro tok p L
  constructor <;> rfl

/-- C3: every fusion run returns at most `k` candidates, sorted by
descending ordering score, none scoring below the reranker threshold, and
no two sharing identical content. -/
theorem get_search_results_contract :
    ∀ (hitLists : List (List SearchHit)) (k : ℕ) (θ : ℚ),
      (get_search_results hitLists k θ).length ≤ k ∧
      List.Sorted byScoreDesc (get_search_results hitLists k θ) ∧
      (∀ x ∈ get_search_results hitLists k θ, θ ≤ x.score) ∧
      (get_search_results hitLists k θ).Pairwise (fun a b => a.content ≠ b.content) := by
  intro hitLists k θ
  unfold get_search_results
  set kept := (hitLists.flatten).filter (fun h => decide (θ ≤ h.score)) with hkept
  refine ⟨?_, ?_, ?_, ?_⟩
  · rw [List.length_take]
    exact min_le_left _ _
  · exact List.Pairwise.sublist (List.take_sublist k _)
      (List.sorted_insertionSort byScoreDesc (dedupHits kept))
  · intro x hx
    have hx1 : x ∈ (dedupHits kept).insertionSort byScoreDesc :=
      List.take_subset k _ hx
    have hx2 : x ∈ dedupHits kept := (List.mem_insertionSort byScoreDesc).mp hx1
    have hx3 : x ∈ kept := by
      rcases mem_dedup_foldl kept [] x hx2 with h1 | h1
      · exact absurd h1 (List.not_mem_nil x)
      · exact h1
    exact of_decide_eq_true (List.mem_filter.mp hx3).2
  · have hd : (dedupHits kept).Pairwise distinctHit :=
      pairwise_dedup_foldl kept [] List.Pairwise.nil
    have hco : (dedupHits kept).Pairwise (fun a b => a.content ≠ b.content) :=
      hd.imp (fun h => h.1)
    have hall : ((dedupHits kept).insertionSort byScoreDesc).Pairwise
        (fun a b => a.content ≠ b.content) :=
      ((List.perm_insertionSort byScoreDesc (dedupHits kept)).pairwise_iff
        (fun hxy e => hxy e.symm)).mpr hco
    exact List.Pairwise.sublist (List.take_sublist k _) hall

/-- Witness for C3: the threshold clause of the fusion contract applied to
a concrete run with one hit of score 2 and threshold 1. -/
theorem get_search_results_contract_witness :
    (1 : ℚ) ≤ (SearchHit.mk "a" "la" 2).score :=
  (get_search_results_contract [[SearchHit.mk "a" "la" 2]] 1 1).2.2.1
    (SearchHit.mk "a" "la" 2) (by decide)

/-- C4: strategy selection is monotonic in the candidate token total —
holding the prompt overhead and context window fixed, if the selector
chooses map-reduce at total `t1` it chooses map-reduce at any `t2 ≥ t1`. -/
theorem chain_type_monotone :
    ∀ (p t1 t2 L : ℕ), t1 ≤ t2 →
      chain_type p t1 L = "map_reduce" → chain_type p t2 L = "map_reduce" := by
  intro p t1 t2 L hle h1
  rw [chain_type] at h1 ⊢
  by_cases hc : 10 * requested_tokens p t1 > 9 * L
  · have h2 : 10 * requested_tokens p t2 > 9 * L := by
      have : requested_tokens p t1 ≤ requested_tokens p t2 := by
        unfold requested_tokens
        omega
      omega
    rw [if_pos h2]
  · rw [if_neg hc] at h1
    exact absurd h1 (by decide)

/-- Witness for C4: monotonicity applied at the concrete pair of totals
14000 ≤ 15000 with the 16384-token window. -/
theorem chain_type_monotone_witness :
    chain_type 1669 15000 16384 = "map_reduce" :=
  chain_type_monotone 1669 14000 15000 16384 (by decide) (by decide)

/-- C5: the segmenter yields exactly one unit per physical page; the
1-based page numbers `page[0] + 1` read off its output are `1..N` in
order, and so are the `page_num` fields of the uploaded documents. -/
theorem parse_pdf_page_numbering :
    ∀ (embed : String → List ℚ) (url bookname : String) (pages : List String),
      (parse_pdf pages).length = pages.length ∧
      (parse_pdf pages).map page_num = List.range' 1 pages.length ∧
      (upload_docs embed url bookname (parse_pdf pages)).map (fun d => d.page_num) =
        List.range' 1 pages.length := by
  intro embed url bookname pages
  refine ⟨parsePages_length pages 0 0, parsePages_map_page_num pages 0 0, ?_⟩
  have h2 : (upload_docs embed url bookname (parse_pdf pages)).map (fun d => d.page_num) =
      (parse_pdf pages).map page_num := by
    rw [upload_docs, List.map_map]
    rfl
  rw [h2]
  exact parsePages_map_page_num pages 0 0

/-- C6: a page whose extracted text is empty or whitespace-only still
occupies its page slot: the segmenter keeps it at its position with its
text, and the uploaded document at that position carries the same text as
its `chunk` and the 1-based page number `n + 1`. -/
theorem blank_page_retained :
    ∀ (embed : String → List ℚ) (url bookname : String) (pages : List String)
      (n : ℕ) (t : String),
      pages[n]? = some t → t.toList.all Char.isWhitespace = true →
      (∃ o, (parse_pdf pages)[n]? = some (n, o, t)) ∧
      ((upload_docs embed url bookname (parse_pdf pages)).map
        (fun d => d.chunk))[n]? = some t ∧
      ((upload_docs embed url bookname (parse_pdf pages)).map
        (fun d => d.page_num))[n]? = some (n + 1) := by
  intro embed url bookname pages n t hget _
  obtain ⟨o, ho⟩ := parsePages_getElem? pages 0 0 n t hget
  rw [Nat.zero_add] at ho
  have ho2 : (parse_pdf pages)[n]? = some (n, o, t) := ho
  refine ⟨⟨o, ho2⟩, ?_, ?_⟩
  · rw [upload_docs, List.map_map, List.getElem?_map, ho2]
    rfl
  · rw [upload_docs, List.map_map, List.getElem?_map, ho2]
    rfl

/-- Witness for C6: in a three-page document whose middle page is the
single space, the segmenter and the upload pipeline keep that page at
position 1 with page number 2. -/
theorem blank_page_retained_witness :
    (∃ o, (parse_pdf ["a", " ", "c"])[1]? = some (1, o, " ")) ∧
    ((upload_docs (fun _ => []) "u" "b" (parse_pdf ["a", " ", "c"])).map
      (fun d => d.chunk))[1]? = some " " ∧
    ((upload_docs (fun _ => []) "u" "b" (parse_pdf ["a", " ", "c"])).map
      (fun d => d.page_num))[1]? = some (1 + 1) :=
  blank_page_retained (fun _ => []) "u" "b" ["a", " ", "c"] 1 " " rfl (by decide)

/-- C7: token counting over document collections is additive and
order-independent — the collection count is the sum of the
independently-counted documents, it distributes over any partition into
sublists, and it is invariant under permutation of the documents. -/
theorem num_tokens_additive :
    (∀ (tok : String → ℕ) (docs : List Document),
      num_tokens_from_docs tok docs =
        (docs.map (fun d => num_tokens_from_docs tok [d])).sum) ∧
    (∀ (tok : String → ℕ) (l1 l2 : List Document),
      num_tokens_from_docs tok (l1 ++ l2) =
        num_tokens_from_docs tok l1 + num_tokens_from_docs tok l2) ∧
    (∀ (tok : String → ℕ) (docs1 docs2 : List Document), docs1.Perm docs2 →
      num_tokens_from_docs tok docs1 = num_tokens_from_docs tok docs2) := by
  refine ⟨fun tok docs => ?_, fun tok l1 l2 => ?_, fun tok docs1 docs2 hperm => ?_⟩
  · simp [num_tokens_from_docs]
  · simp [num_tokens_from_docs]
  · exact (hperm.map (fun d => tok d.page_content)).sum_eq

/-- Witness for C7: permutation invariance at a concrete two-document
collection counted by string length. -/
theorem num_tokens_additive_witness :
    num_tokens_from_docs String.length [Document.mk "ab" "", Document.mk "c" ""] =
      num_tokens_from_docs String.length [Document.mk "c" "", Document.mk "ab" ""] :=
  num_tokens_additive.2.2 String.length
    [Document.mk "ab" "", Document.mk "c" ""]
    [Document.mk "c" "", Document.mk "ab" ""] (by decide)

/-- C8: the upload loop records exactly one outcome per page of every book
and attempts every page — a page whose attempt raises (caught exception)
or returns a non-200 status never prevents any other page of that book or
of later books from being attempted. -/
theorem upload_loop_page_isolation :
    ∀ (attempt : String → ℕ → String → Except String ℕ)
      (books : List (String × List (ℕ × ℕ × String))),
      (upload_loop attempt books).length = (books.map (fun b => b.2.length)).sum ∧
      (∀ (bookname : String) (bookmap : List (ℕ × ℕ × String)),
        (bookname, bookmap) ∈ books →
        ∀ page ∈ bookmap,
          (bookname, page_num page, attempt bookname (page_num page) page.2.2) ∈
            upload_loop attempt books) :=
  fun attempt books =>
    ⟨upload_loop_length attempt books,
     fun bookname bookmap hb page hp =>
       mem_upload_loop attempt books bookname bookmap hb page hp⟩

/-- Witness for C8: with an attempt function that raises on page 1, page 2
of the same book is still attempted and its 200 outcome recorded. -/
theorem upload_loop_page_isolation_witness :
    ("b", 2, Except.ok 200) ∈ upload_loop
      (fun _ pn _ => if pn = 1 then Except.error "exception" else Except.ok 200)
      [("b", [(0, 0, "x"), (1, 5, "y")])] :=
  (upload_loop_page_isolation
      (fun _ pn _ => if pn = 1 then Except.error "exception" else Except.ok 200)
      [("b", [(0, 0, "x"), (1, 5, "y")])]).2
    "b" [(0, 0, "x"), (1, 5, "y")] (by decide) (1, 5, "y") (by decide)

/-- C9: the uploaded document's `chunk` always keeps the page's original
content, the embedder receives the placeholder `-------` exactly when the
content is empty and the content itself otherwise, and the embedder's
argument is never the empty string. -/
theorem empty_page_embedding_placeholder :
    ∀ (embed : String → List ℚ) (url bookname : String) (page : ℕ × ℕ × String),
      (upload_doc embed url bookname page).chunk = page.2.2 ∧
      (upload_doc embed url bookname page).chunkVector =
        embed (embed_input page.2.2) ∧
      embed_input page.2.2 ≠ "" ∧
      (page.2.2 = "" → embed_input page.2.2 = "-------") ∧
      (page.2.2 ≠ "" → embed_input page.2.2 = page.2.2) := by
  intro embed url bookname page
  refine ⟨rfl, rfl, ?_, ?_, ?_⟩
  · unfold embed_input
    split_ifs with hc
    · exact hc
    · decide
  · intro he
    simp [embed_input, he]
  · intro he
    simp [embed_input, he]

/-- Witness for C9: an empty page is stored with empty chunk while the
embedder is called on the placeholder. -/
theorem empty_page_embedding_placeholder_witness :
    embed_input "" = "-------" ∧
    (upload_doc (fun _ => []) "u" "b" (0, 0, "")).chunk = "" :=
  ⟨(empty_page_embedding_placeholder (fun _ => []) "u" "b" (0, 0, "")).2.2.2.1 rfl,
   (empty_page_embedding_placeholder (fun _ => []) "u" "b" (0, 0, "")).1⟩

/-- C10: the identity of an uploaded document is a deterministic function
of the book name and the 1-based page number alone — its id is the base64
encoding of the book name concatenated with the page-number string and its
title is the book name followed by `_page_` and the page number, both
independent of the page's content, offset, embedder and container URL. -/
theorem doc_identity_deterministic :
    ∀ (embed1 embed2 : String → List ℚ) (url1 url2 bookname : String)
      (i o1 o2 : ℕ) (c1 c2 : String),
      (upload_doc embed1 url1 bookname (i, o1, c1)).id =
        text_to_base64 (bookname ++ toString (i + 1)) ∧
      (upload_doc embed1 url1 bookname (i, o1, c1)).title =
        bookname ++ "_page_" ++ toString (i + 1) ∧
      (upload_doc embed1 url1 bookname (i, o1, c1)).id =
        (upload_doc embed2 url2 bookname (i, o2, c2)).id ∧
      (upload_doc embed1 url1 bookname (i, o1, c1)).title =
        (upload_doc embed2 url2 bookname (i, o2, c2)).title :=
  fun _ _ _ _ _ _ _ _ _ _ => ⟨rfl, rfl, rfl, rfl⟩

end Accel
